import Mathlib

/-!
# Verification of the llgo code-generation core

A shallow embedding, in Lean 4, of the two source files of the llgo
code-generation core (`compiler.go` and the defer/unwind lowering file),
together with theorems settling the frozen specification claims.

The embedding follows the Go source:

* the Go AST fragment relevant to the two tree-walking predicates
  (`hasDefer`, `hasCallExpr`) is a closed mutual inductive family;
  `ast.Inspect`'s pre-order, stop-on-`false` traversal is rendered as
  structural recursion (returning `false` from the visitor, which prevents
  descent into a node's children, corresponds to a constructor case that
  does not recurse);
* the LLVM-builder session (global insertion cursor, basic blocks, the
  module's named-function table) is an explicit state record `CState`;
  instruction emission appends to the cursor's block;
* Go's fallible operations return `Except`/`Option`; Go panics are
  rendered as the `Except.error` branch;
* `Module.Dispose` has a *value* receiver in the source, so its receiver
  mutation is modelled as acting on a copy that the caller discards.
-/

set_option autoImplicit false

namespace Llgo

/-! ## Go AST fragment

The statement/expression fragment traversed by `hasDefer` and
`hasCallExpr`.  A Go `*ast.CallExpr` is a callee (`Fun`) plus an argument
list (`Args`); `DeferStmt`/`GoStmt` each hold one call, embedded here as
the call's two components.  Argument and statement lists are their own
mutual constructors so that all recursion is plainly structural. -/

mutual

inductive Expr : Type where
  | ident (name : String) : Expr
  | basicLit : Expr
  | paren (e : Expr) : Expr
  | binary (x y : Expr) : Expr
  | callExpr (fn : Expr) (args : ExprList) : Expr
  | funcLit (body : StmtList) : Expr

inductive ExprList : Type where
  | nil : ExprList
  | cons (e : Expr) (es : ExprList) : ExprList

inductive Stmt : Type where
  | exprStmt (e : Expr) : Stmt
  | deferStmt (fn : Expr) (args : ExprList) : Stmt
  | goStmt (fn : Expr) (args : ExprList) : Stmt
  | returnStmt (es : ExprList) : Stmt
  | ifStmt (cond : Expr) (thn els : StmtList) : Stmt
  | blockStmt (body : StmtList) : Stmt

inductive StmtList : Type where
  | nil : StmtList
  | cons (s : Stmt) (ss : StmtList) : StmtList

end

/-! ## hasDefer (part_000, lines 15–35)

`ast.Inspect` with a visitor that stops at `DeferStmt` (found) and at
`FuncLit` (not inspected).  Defer statements live only in statement
position, and the only expression that contains statements is a function
literal, which the visitor skips; so the traversal is carried by the
statement structure. -/

mutual

def hasDeferS : Stmt → Bool
  | .exprStmt _ => false
  | .deferStmt _ _ => true
  | .goStmt _ _ => false
  | .returnStmt _ => false
  | .ifStmt _ thn els => hasDeferSL thn || hasDeferSL els
  | .blockStmt body => hasDeferSL body

def hasDeferSL : StmtList → Bool
  | .nil => false
  | .cons s ss => hasDeferS s || hasDeferSL ss

end

def hasDefer (body : StmtList) : Bool := hasDeferSL body

/-! ## hasCallExpr (part_000, lines 42–61)

The visitor returns `false` (no descent) at `GoStmt` and `DeferStmt` —
skipping the *entire* statement, callee and arguments alike — records a
find at `CallExpr`, and returns `false` at `FuncLit`. -/

mutual

def hasCallE : Expr → Bool
  | .ident _ => false
  | .basicLit => false
  | .paren e => hasCallE e
  | .binary x y => hasCallE x || hasCallE y
  | .callExpr _ _ => true
  | .funcLit _ => false

def hasCallEL : ExprList → Bool
  | .nil => false
  | .cons e es => hasCallE e || hasCallEL es

def hasCallS : Stmt → Bool
  | .exprStmt e => hasCallE e
  | .deferStmt _ _ => false
  | .goStmt _ _ => false
  | .returnStmt es => hasCallEL es
  | .ifStmt cond thn els => hasCallE cond || (hasCallSL thn || hasCallSL els)
  | .blockStmt body => hasCallSL body

def hasCallSL : StmtList → Bool
  | .nil => false
  | .cons s ss => hasCallS s || hasCallSL ss

end

def hasCallExpr (body : StmtList) : Bool := hasCallSL body

/-! ## The specification's has-direct-call predicate (for claim C3)

Written from the spec's words, to be compared with `hasCallExpr`:
"true iff the body contains at least one call expression that is *not*
the callee expression of a deferred-call statement, *not* the callee
expression of a concurrent-spawn statement, and *not* inside a nested
function literal" — so a call in the argument list of a defer/go
statement still counts, and only the callee expression itself is
excluded (calls nested inside the callee are not the callee). -/

mutual

def specDCallE : Expr → Bool
  | .ident _ => false
  | .basicLit => false
  | .paren e => specDCallE e
  | .binary x y => specDCallE x || specDCallE y
  | .callExpr _ _ => true
  | .funcLit _ => false

def specDCallEL : ExprList → Bool
  | .nil => false
  | .cons e es => specDCallE e || specDCallEL es

end

/-- Qualifying calls inside the callee position of a defer/go statement:
the callee expression itself is excluded, but calls strictly inside it
are not. -/
def specCalleeE : Expr → Bool
  | .callExpr fn args => specDCallE fn || specDCallEL args
  | e => specDCallE e

mutual

def specDCallS : Stmt → Bool
  | .exprStmt e => specDCallE e
  | .deferStmt fn args => specCalleeE fn || specDCallEL args
  | .goStmt fn args => specCalleeE fn || specDCallEL args
  | .returnStmt es => specDCallEL es
  | .ifStmt cond thn els => specDCallE cond || (specDCallSL thn || specDCallSL els)
  | .blockStmt body => specDCallSL body

def specDCallSL : StmtList → Bool
  | .nil => false
  | .cons s ss => specDCallS s || specDCallSL ss

end

def specHasDirectCall (body : StmtList) : Bool := specDCallSL body

/-! ## Qualifying-call occurrence count (for C3's amended claim)

Counts the call-expression occurrences that are outside every
deferred-call statement, every concurrent-spawn statement, and every
nested function literal — i.e. the occurrences the code's traversal can
actually reach. -/

mutual

def directCallsE : Expr → Nat
  | .ident _ => 0
  | .basicLit => 0
  | .paren e => directCallsE e
  | .binary x y => directCallsE x + directCallsE y
  | .callExpr fn args => 1 + directCallsE fn + directCallsEL args
  | .funcLit _ => 0

def directCallsEL : ExprList → Nat
  | .nil => 0
  | .cons e es => directCallsE e + directCallsEL es

def directCallsS : Stmt → Nat
  | .exprStmt e => directCallsE e
  | .deferStmt _ _ => 0
  | .goStmt _ _ => 0
  | .returnStmt es => directCallsEL es
  | .ifStmt cond thn els => directCallsE cond + (directCallsSL thn + directCallsSL els)
  | .blockStmt body => directCallsSL body

def directCallsSL : StmtList → Nat
  | .nil => 0
  | .cons s ss => directCallsS s + directCallsSL ss

end

def directCalls (body : StmtList) : Nat := directCallsSL body

/-- A body whose sole statement is `defer f(g())`: a call expression in
the argument list of a deferred-call statement. -/
def deferArgCallBody : StmtList :=
  .cons (.deferStmt (.ident "f") (.cons (.callExpr (.ident "g") .nil) .nil)) .nil

/-! ## LLVM-session state

Types, values and instructions, as far as the two source files touch
them.  Basic blocks are identified by numeric handles drawn from the
session's counter; `blocks` maps a handle to the block's instruction
list (each instruction paired with the numeric handle of its result
value).  `modFuncs` is the module's named-function table, holding both
the memoized `NamedFunction`/`RuntimeFunction` declarations (given by
their Go signature strings, as in the source) and raw `llvm.AddFunction`
declarations (given by their LLVM type). -/

inductive Ty : Type where
  | i8 : Ty
  | i32 : Ty
  | intptr : Ty
  | ptr (t : Ty) : Ty
  | struct2 (a b : Ty) : Ty
deriving DecidableEq, Repr

inductive FnSig : Type where
  | goSig (sig : String) : FnSig
  | llvmSig (ret : Ty) (params : List Ty) (vararg : Bool) : FnSig
deriving DecidableEq, Repr

inductive Val : Type where
  | reg (id : Nat) : Val
  | constNull (t : Ty) : Val
  | fnRef (name : String) : Val
  | objVal (name : String) : Val
  | param (fn : String) (i : Nat) : Val
deriving DecidableEq, Repr

inductive Instr : Type where
  | malloc (t : Ty) : Instr
  | load (src : Val) : Instr
  | call (fn : Val) (args : List Val) : Instr
  | bitcast (v : Val) (t : Ty) : Instr
  | landingpad (t : Ty) (pers : Val) (nclauses : Nat) (clauses : List Val) : Instr
  | br (target : Nat) : Instr
  | retVoid : Instr
  | ret (v : Val) : Instr
  | aggRet (vs : List Val) : Instr
deriving DecidableEq, Repr

/-- The code-generation session: the builder's global insertion cursor,
the function's basic blocks (with their layout order), and the module's
named functions. -/
structure CState : Type where
  nextId : Nat
  insertBlock : Nat
  blocks : Nat → List (Nat × Instr)
  order : List Nat
  modFuncs : List (String × FnSig)

/-- `builder.SetInsertPointAtEnd`. -/
def setCursor (st : CState) (b : Nat) : CState := { st with insertBlock := b }

/-- Emit one instruction at the end of the cursor's block; its result is
a fresh value handle. -/
def emit (st : CState) (i : Instr) : Nat × CState :=
  (st.nextId,
   { st with
     nextId := st.nextId + 1
     blocks := fun j =>
       if j = st.insertBlock then st.blocks st.insertBlock ++ [(st.nextId, i)]
       else st.blocks j })

/-- `llvm.AddBasicBlock`: a fresh, empty block, appended to the layout
order. -/
def addBlock (st : CState) : Nat × CState :=
  (st.nextId,
   { st with
     nextId := st.nextId + 1
     blocks := fun j => if j = st.nextId then [] else st.blocks j
     order := st.order ++ [st.nextId] })

def insertAfterList : List Nat → Nat → Nat → List Nat
  | [], _, b => [b]
  | x :: xs, a, b => if x = a then x :: b :: xs else x :: insertAfterList xs a b

/-- `BasicBlock.MoveAfter`: reposition block `b` directly after block
`a` in the layout order. -/
def moveAfter (st : CState) (b a : Nat) : CState :=
  { st with order := insertAfterList (st.order.erase b) a b }

/-- `compiler.NamedFunction` / `RuntimeFunction` (FunctionCache):
declare-or-reuse, memoized by name. -/
def namedFunction (st : CState) (name : String) (sig : String) : Val × CState :=
  match st.modFuncs.lookup name with
  | some _ => (.fnRef name, st)
  | none => (.fnRef name, { st with modFuncs := st.modFuncs ++ [(name, .goSig sig)] })

/-- `llvm.Module.NamedFunction`: plain lookup; `none` is LLVM's nil
value. -/
def moduleNamedFunction (st : CState) (name : String) : Option FnSig :=
  st.modFuncs.lookup name

def addClauseInstr : Instr → Val → Instr
  | .landingpad t pers n cls, cl => .landingpad t pers n (cls ++ [cl])
  | i, _ => i

/-- `LandingPad.AddClause` on the landing-pad value `lp` sitting in the
cursor's block. -/
def addClause (st : CState) (lp : Nat) (cl : Val) : CState :=
  { st with
    blocks := fun j =>
      if j = st.insertBlock then
        (st.blocks st.insertBlock).map fun p =>
          if p.1 = lp then (p.1, addClauseInstr p.2 cl) else p
      else st.blocks j }

/-- Per-function lowering state (`*function` in the source): defer
anchor, defer block, optional unwind block, declared result objects.
LLVM nil values/blocks are `none`. -/
structure FState : Type where
  deferptr : Option Val
  deferblock : Option Nat
  unwindblock : Option Nat
  results : List String

/-! ## makeDeferBlock (part_000, lines 70–122)

`failAt` injects an abnormal termination (a Go panic inside one of the
collaborator calls) after the corresponding phase; `none` is the normal
run.  The `Except.error` branch carries the session state at the point
the failure propagates.  The wrapper restores the insertion cursor on
both exits, mirroring `defer c.builder.SetInsertPointAtEnd(currblock)`.

`createTypeMalloc` (a collaborator outside these two files) allocates
heap storage of the given type and yields the pointer value; it is
modelled as the primitive `malloc` instruction. -/

/-- The trailing `CreateRetVoid` / `CreateRet` / `CreateAggregateRet`
switch of `makeDeferBlock` (part_000, lines 109–121): the function's
real return, built from its declared result slots. -/
def emitReturn (st : CState) (results : List String) : CState :=
  match results with
  | [] => (emit st .retVoid).2
  | [r] => (emit st (.ret (.objVal r))).2
  | rs => (emit st (.aggRet (rs.map Val.objVal))).2

def makeDeferBlockCore (failAt : Option Nat) (body : StmtList) (st0 : CState) (f0 : FState) :
    Except CState (CState × FState) :=
  -- f.deferptr = c.createTypeMalloc(c.target.IntPtrType())
  let (dp, st1) := emit st0 (.malloc .intptr)
  let f1 : FState := { f0 with deferptr := some (.reg dp) }
  if failAt = some 0 then .error st1 else
  -- f.deferblock = llvm.AddBasicBlock(currblock.Parent(), "")
  let (db, st2) := addBlock st1
  let f2 : FState := { f1 with deferblock := some db }
  let (st3, f3) :=
    if hasCallExpr body then
      let (ub, stA) := addBlock st2
      let stB := moveAfter stA ub st0.insertBlock
      let stC := moveAfter stB db ub
      (stC, { f2 with unwindblock := some ub })
    else
      (moveAfter st2 db st0.insertBlock, f2)
  if failAt = some 1 then .error st3 else
  -- landingpad/unwind target block
  let st4 :=
    match f3.unwindblock with
    | some ub =>
      let stA := setCursor st3 ub
      let i8p := Ty.ptr .i8
      let stB :=
        match moduleNamedFunction stA "__gxx_personality_v0" with
        | some _ => stA
        | none =>
          { stA with
            modFuncs := stA.modFuncs ++ [("__gxx_personality_v0", FnSig.llvmSig .i32 [] true)] }
      let (lp, stC) := emit stB (.landingpad (.struct2 i8p .i32) (.fnRef "__gxx_personality_v0") 1 [])
      let stD := addClause stC lp (.constNull i8p)
      let (_, stE) := emit stD (.br db)
      stE
    | none => st3
  if failAt = some 2 then .error st4 else
  -- the real return instruction
  let st5 := setCursor st4 db
  let (pv, st6) := emit st5 (.load (f3.deferptr.getD (.constNull .intptr)))
  let (rd, st7) := namedFunction st6 "runtime.rundefers" "func f(uintptr)"
  let (_, st8) := emit st7 (.call rd [.reg pv])
  .ok (emitReturn st8 f3.results, f3)

def makeDeferBlock (failAt : Option Nat) (body : StmtList) (st : CState) (f : FState) :
    Except CState (CState × FState) :=
  let currblock := st.insertBlock
  match makeDeferBlockCore failAt body st f with
  | .ok (st', f') => .ok (setCursor st' currblock, f')
  | .error st' => .error (setCursor st' currblock)

/-! ## createMainFunction (compiler.go, lines 330–375) -/

def createMainFunction (st0 : CState) : Except String CState :=
  -- mainMain := c.module.NamedFunction("main.main")
  match moduleNamedFunction st0 "main.main" with
  | none => .error "Could not find main.main"
  | some _ =>
    let (_, st1) := namedFunction st0 "runtime.main" "func(int32, **byte, **byte, *int8) int32"
    let (_, st2) := namedFunction st1 "main" "func(int32, **byte, **byte) int32"
    -- (SetCurrentDebugLocation attaches metadata only; no IR effect)
    let (entry, st3) := addBlock st2
    let st4 := setCursor st3 entry
    -- bitcast main.main to runtime.main's 4th parameter type, *int8
    let (bc, st5) := emit st4 (.bitcast (.fnRef "main.main") (.ptr .i8))
    let (res, st6) :=
      emit st5 (.call (.fnRef "runtime.main")
        [.param "main" 0, .param "main" 1, .param "main" 2, .reg bc])
    let (_, st7) := emit st6 (.ret (.reg res))
    .ok st7

/-! ## Module and Dispose (compiler.go, lines 20–31)

`Dispose` has a *value* receiver in the source
(`func (m Module) Dispose()`), so `m.Disposed = true` mutates a copy of
the receiver that is discarded when the call returns; the caller's
`Module` is unchanged.  `Dispose` here returns the mutated copy together
with a flag recording whether the underlying `llvm.Module.Dispose` was
invoked during the call. -/

structure Module : Type where
  name : String
  disposed : Bool
deriving DecidableEq, Repr

def Module.Dispose (m : Module) : Module × Bool :=
  if !m.disposed then ({ m with disposed := true }, true) else (m, false)

/-- How many times the underlying backend module gets disposed across
`n` successive `Dispose` calls on the same `Module` variable.  Because
the receiver is a copy, the variable still holds `m` itself when the
next call starts. -/
def disposeTimes (m : Module) : Nat → Nat
  | 0 => 0
  | n + 1 => (Module.Dispose m).2.toNat + disposeTimes m n

/-! ## Compile (compiler.go, lines 172–328)

The external collaborators' outcomes are inputs: `buildContext` is
`llgobuild.Context`, `parseResult` is `parseFiles` (yielding, on
success, the first file's package name), `packageErr` is the `Err` field
of the package created by `importer.CreatePackage` (a type-check
failure), and `exportErr` is the exporter's outcome for non-root units.
`st` is the session state after `translatePackage`, consulted by
`createMainFunction`. -/

structure FrontEnd : Type where
  buildContext : Except String Unit
  parseResult : Except String String
  packageErr : Option String
  exportErr : Option String

def Compile (fe : FrontEnd) (st : CState) (importpath : String) : Option Module × Option String :=
  match fe.buildContext with
  | .error e => (none, some e)
  | .ok _ =>
    match fe.parseResult with
    | .error e => (none, some e)
    | .ok pkgname =>
      -- the Go variable `err` was last assigned by parseFiles, which
      -- succeeded on this path, so it holds nil here
      let err : Option String := none
      let importpath := if importpath = "" || pkgname = "main" then pkgname else importpath
      if fe.packageErr.isSome then
        -- source: `if pkginfo.Err != nil { return nil, err }` — this
        -- returns the stale `err`, not `pkginfo.Err`
        (none, err)
      else
        if importpath = "main" then
          match createMainFunction st with
          | .error e => (none, some e)
          | .ok _ => (some { name := importpath, disposed := false }, none)
        else
          match fe.exportErr with
          | some e => (none, some e)
          | none => (some { name := importpath, disposed := false }, none)

/-! ## parseArch and NewCompiler's triple slicing (compiler.go, 84–157) -/

/-- The switch cases of `parseArch`, in source order (string switches in
Go test the cases by equality, first match wins). -/
def archTable : List (String × String) :=
  [("i386", "x86"), ("i486", "x86"), ("i586", "x86"), ("i686", "x86"),
   ("i786", "x86"), ("i886", "x86"), ("i986", "x86"),
   ("amd64", "x86-64"), ("x86_64", "x86-64"),
   ("powerpc", "ppc"),
   ("powerpc64", "ppc64"), ("ppu", "ppc64"),
   ("mblaze", "mblaze"),
   ("arm", "arm"), ("xscale", "arm"),
   ("thumb", "thumb"),
   ("spu", "cellspu"), ("cellspu", "cellspu"),
   ("msp430", "msp430"),
   ("mips", "mips"), ("mipseb", "mips"), ("mipsallegrex", "mips"),
   ("mipsel", "mipsel"), ("mipsallegrexel", "mipsel"),
   ("mips64", "mips64"), ("mips64eb", "mips64"),
   ("mipsel64", "mipsel64"),
   ("r600", "r600"), ("hexagon", "hexagon"), ("sparc", "sparc"),
   ("sparcv9", "sparcv9"), ("tce", "tce"), ("xcore", "xcore"),
   ("nvptx", "nvptx"), ("nvptx64", "nvptx64"), ("le32", "le32"),
   ("amdil", "amdil")]

/-- `strings.HasPrefix`, at rune granularity. -/
def goHasPrefixStr (p s : String) : Bool := p.data.isPrefixOf s.data

def parseArch (arch : String) : String :=
  match archTable.lookup arch with
  | some canon => canon
  | none =>
    if goHasPrefixStr "armv" arch then "arm"
    else if goHasPrefixStr "thumbv" arch then "thumb"
    else "unknown"

/-- `strings.IndexRune` for a rune searched in a string, at rune
granularity (`'-'` is ASCII, so byte and rune positions of the first
`'-'` coincide): the index of the first occurrence, or `-1`. -/
def indexRune (cs : List Char) (c : Char) : Int :=
  match cs with
  | [] => -1
  | a :: as =>
    if a = c then 0
    else
      let r := indexRune as c
      if r < 0 then -1 else r + 1

/-- Go slicing `s[:i]`: panics (here `none`) unless `0 ≤ i ≤ len(s)`. -/
def goSlicePrefixTo (s : String) (i : Int) : Option String :=
  if 0 ≤ i ∧ i ≤ (s.data.length : Int) then some (String.mk (s.data.take i.toNat)) else none

/-- The architecture-field extraction in `NewCompiler`:
`triple[:strings.IndexRune(triple, '-')]`, applied to the target triple
after the pnacl rewrite, if any. -/
def newCompilerArch (triple : String) : Option String :=
  goSlicePrefixTo triple (indexRune triple.data '-')

/-! ## Concrete inputs used by witnesses -/

/-- A fresh session: one (empty) entry block, cursor on it, no declared
functions. -/
def initState : CState :=
  { nextId := 1, insertBlock := 0, blocks := fun _ => [], order := [0], modFuncs := [] }

/-- A fresh per-function state: nil anchor and blocks, no result slots. -/
def freshF : FState :=
  { deferptr := none, deferblock := none, unwindblock := none, results := [] }

/-- A fresh per-function state with one declared result slot. -/
def oneResultF : FState :=
  { deferptr := none, deferblock := none, unwindblock := none, results := ["ret0"] }

/-- A body with one defer statement and one direct call:
`defer f(); g()`. -/
def deferAndCallBody : StmtList :=
  .cons (.deferStmt (.ident "f") .nil)
    (.cons (.exprStmt (.callExpr (.ident "g") .nil)) .nil)

/-- A body with one defer statement and no other call:
`defer f()`. -/
def deferOnlyBody : StmtList :=
  .cons (.deferStmt (.ident "f") .nil) .nil

/-! # Proofs -/

/-! ## The code's traversal agrees with the qualifying-occurrence count -/

mutual

def hasCallE_iff_directCalls : (e : Expr) → (hasCallE e = true ↔ 0 < directCallsE e)
  | .ident _ => by simp [hasCallE, directCallsE]
  | .basicLit => by simp [hasCallE, directCallsE]
  | .paren e => by
      have h := hasCallE_iff_directCalls e
      simpa [hasCallE, directCallsE] using h
  | .binary x y => by
      have hx := hasCallE_iff_directCalls x
      have hy := hasCallE_iff_directCalls y
      simp only [hasCallE, directCallsE, Bool.or_eq_true, hx, hy]
      omega
  | .callExpr fn args => by simp [hasCallE, directCallsE]
  | .funcLit _ => by simp [hasCallE, directCallsE]

def hasCallEL_iff_directCalls : (es : ExprList) → (hasCallEL es = true ↔ 0 < directCallsEL es)
  | .nil => by simp [hasCallEL, directCallsEL]
  | .cons e es => by
      have he := hasCallE_iff_directCalls e
      have hes := hasCallEL_iff_directCalls es
      simp only [hasCallEL, directCallsEL, Bool.or_eq_true, he, hes]
      omega

def hasCallS_iff_directCalls : (s : Stmt) → (hasCallS s = true ↔ 0 < directCallsS s)
  | .exprStmt e => hasCallE_iff_directCalls e
  | .deferStmt _ _ => by simp [hasCallS, directCallsS]
  | .goStmt _ _ => by simp [hasCallS, directCallsS]
  | .returnStmt es => hasCallEL_iff_directCalls es
  | .ifStmt cond thn els => by
      have hc := hasCallE_iff_directCalls cond
      have ht := hasCallSL_iff_directCalls thn
      have he := hasCallSL_iff_directCalls els
      simp only [hasCallS, directCallsS, Bool.or_eq_true, hc, ht, he]
      omega
  | .blockStmt body => hasCallSL_iff_directCalls body

def hasCallSL_iff_directCalls : (ss : StmtList) → (hasCallSL ss = true ↔ 0 < directCallsSL ss)
  | .nil => by simp [hasCallSL, directCallsSL]
  | .cons s ss => by
      have hs := hasCallS_iff_directCalls s
      have hss := hasCallSL_iff_directCalls ss
      simp only [hasCallSL, directCallsSL, Bool.or_eq_true, hs, hss]
      omega

end

/-! ## Projection lemmas for the session-state operations -/

section StateLemmas

variable (st : CState) (i : Instr) (b j : Nat)

@[simp] theorem setCursor_nextId : (setCursor st b).nextId = st.nextId := rfl
@[simp] theorem setCursor_insertBlock : (setCursor st b).insertBlock = b := rfl
@[simp] theorem setCursor_blocks : (setCursor st b).blocks = st.blocks := rfl
@[simp] theorem setCursor_modFuncs : (setCursor st b).modFuncs = st.modFuncs := rfl

@[simp] theorem emit_fst : (emit st i).1 = st.nextId := rfl
@[simp] theorem emit_nextId : (emit st i).2.nextId = st.nextId + 1 := rfl
@[simp] theorem emit_insertBlock : (emit st i).2.insertBlock = st.insertBlock := rfl
@[simp] theorem emit_modFuncs : (emit st i).2.modFuncs = st.modFuncs := rfl
@[simp] theorem emit_blocks :
    (emit st i).2.blocks j =
      (if j = st.insertBlock then st.blocks st.insertBlock ++ [(st.nextId, i)]
       else st.blocks j) := rfl

@[simp] theorem addBlock_fst : (addBlock st).1 = st.nextId := rfl
@[simp] theorem addBlock_nextId : (addBlock st).2.nextId = st.nextId + 1 := rfl
@[simp] theorem addBlock_insertBlock : (addBlock st).2.insertBlock = st.insertBlock := rfl
@[simp] theorem addBlock_modFuncs : (addBlock st).2.modFuncs = st.modFuncs := rfl
@[simp] theorem addBlock_blocks :
    (addBlock st).2.blocks j = (if j = st.nextId then [] else st.blocks j) := rfl

@[simp] theorem moveAfter_nextId (a : Nat) : (moveAfter st b a).nextId = st.nextId := rfl
@[simp] theorem moveAfter_insertBlock (a : Nat) :
    (moveAfter st b a).insertBlock = st.insertBlock := rfl
@[simp] theorem moveAfter_blocks (a : Nat) : (moveAfter st b a).blocks = st.blocks := rfl
@[simp] theorem moveAfter_modFuncs (a : Nat) : (moveAfter st b a).modFuncs = st.modFuncs := rfl

@[simp] theorem addClause_nextId (lp : Nat) (cl : Val) :
    (addClause st lp cl).nextId = st.nextId := rfl
@[simp] theorem addClause_insertBlock (lp : Nat) (cl : Val) :
    (addClause st lp cl).insertBlock = st.insertBlock := rfl
@[simp] theorem addClause_modFuncs (lp : Nat) (cl : Val) :
    (addClause st lp cl).modFuncs = st.modFuncs := rfl
@[simp] theorem addClause_blocks (lp : Nat) (cl : Val) :
    (addClause st lp cl).blocks j =
      (if j = st.insertBlock then
        (st.blocks st.insertBlock).map fun p =>
          if p.1 = lp then (p.1, addClauseInstr p.2 cl) else p
       else st.blocks j) := rfl

@[simp] theorem emitReturn_nextId (rs : List String) :
    (emitReturn st rs).nextId = st.nextId + 1 := by
  rcases rs with _ | ⟨r, _ | ⟨r2, rs⟩⟩ <;> rfl
@[simp] theorem emitReturn_insertBlock (rs : List String) :
    (emitReturn st rs).insertBlock = st.insertBlock := by
  rcases rs with _ | ⟨r, _ | ⟨r2, rs⟩⟩ <;> rfl
@[simp] theorem emitReturn_modFuncs (rs : List String) :
    (emitReturn st rs).modFuncs = st.modFuncs := by
  rcases rs with _ | ⟨r, _ | ⟨r2, rs⟩⟩ <;> rfl
@[simp] theorem emitReturn_blocks (rs : List String) :
    (emitReturn st rs).blocks j =
      (if j = st.insertBlock then
        st.blocks st.insertBlock ++
          (match rs with
           | [] => [(st.nextId, Instr.retVoid)]
           | [r] => [(st.nextId, Instr.ret (.objVal r))]
           | rs => [(st.nextId, Instr.aggRet (rs.map Val.objVal))])
       else st.blocks j) := by
  rcases rs with _ | ⟨r, _ | ⟨r2, rs⟩⟩ <;> simp [emitReturn]

@[simp] theorem namedFunction_fst (n s : String) : (namedFunction st n s).1 = .fnRef n := by
  unfold namedFunction; cases st.modFuncs.lookup n <;> rfl
@[simp] theorem namedFunction_nextId (n s : String) :
    (namedFunction st n s).2.nextId = st.nextId := by
  unfold namedFunction; cases st.modFuncs.lookup n <;> rfl
@[simp] theorem namedFunction_insertBlock (n s : String) :
    (namedFunction st n s).2.insertBlock = st.insertBlock := by
  unfold namedFunction; cases st.modFuncs.lookup n <;> rfl
@[simp] theorem namedFunction_blocks (n s : String) :
    (namedFunction st n s).2.blocks = st.blocks := by
  unfold namedFunction; cases st.modFuncs.lookup n <;> rfl

end StateLemmas

/-! ## Association-list lookup helpers -/

section LookupLemmas

variable {α : Type} {β : Type} [BEq α]

theorem lookup_append_some {l₁ l₂ : List (α × β)} {a : α} {v : β}
    (h : l₁.lookup a = some v) : (l₁ ++ l₂).lookup a = some v := by
  induction l₁ with
  | nil => simp [List.lookup] at h
  | cons p l ih =>
    cases p with
    | mk k b =>
      rw [List.lookup] at h
      rw [List.cons_append, List.lookup]
      cases hbeq : a == k with
      | true => rw [hbeq] at h; exact h
      | false => rw [hbeq] at h; exact ih h

theorem lookup_append_none {l₁ l₂ : List (α × β)} {a : α}
    (h : l₁.lookup a = none) : (l₁ ++ l₂).lookup a = l₂.lookup a := by
  induction l₁ with
  | nil => simp
  | cons p l ih =>
    cases p with
    | mk k b =>
      rw [List.lookup] at h
      rw [List.cons_append, List.lookup]
      cases hbeq : a == k with
      | true => rw [hbeq] at h; exact absurd h (by simp)
      | false => rw [hbeq] at h; exact ih h

theorem lookup_some_key [LawfulBEq α] {l : List (α × β)} {a : α} {v : β}
    (h : l.lookup a = some v) : ∃ p, p ∈ l ∧ a = p.1 := by
  induction l with
  | nil => simp [List.lookup] at h
  | cons p l ih =>
    cases p with
    | mk k b =>
      rw [List.lookup] at h
      cases hbeq : a == k with
      | true => exact ⟨(k, b), List.mem_cons_self _ _, eq_of_beq hbeq⟩
      | false =>
        rw [hbeq] at h
        obtain ⟨p, hp, he⟩ := ih h
        exact ⟨p, List.mem_cons_of_mem _ hp, he⟩

/-- `namedFunction` never disturbs the visibility of a *differently*
named declaration. -/
theorem namedFunction_modFuncs_lookup (st : CState) (n s : String) {a : String} (h : a ≠ n) :
    (namedFunction st n s).2.modFuncs.lookup a = st.modFuncs.lookup a := by
  unfold namedFunction
  cases hl : st.modFuncs.lookup n with
  | some v => rfl
  | none =>
    show (st.modFuncs ++ [(n, FnSig.goSig s)]).lookup a = st.modFuncs.lookup a
    cases ha : st.modFuncs.lookup a with
    | some v => exact lookup_append_some ha
    | none =>
      rw [lookup_append_none ha, List.lookup]
      have : (a == n) = false := beq_eq_false_iff_ne.mpr h
      rw [this]
      rfl

end LookupLemmas

/-- C6: On every exit path from epilogue synthesis (`makeDeferBlock`),
normal or via a propagating abnormal failure (`failAt`), the session's
global insertion cursor is restored to the block that was current at
entry. -/
theorem makeDeferBlock_restores_cursor :
    ∀ (failAt : Option Nat) (body : StmtList) (st : CState) (f : FState),
      (match makeDeferBlock failAt body st f with
       | .ok (st', _) => st'.insertBlock
       | .error st' => st'.insertBlock) = st.insertBlock := by
  intro failAt body st f
  unfold makeDeferBlock
  cases h : makeDeferBlockCore failAt body st f with
  | ok p => cases p with | mk st' f' => simp [setCursor]
  | error st' => simp [setCursor]

/-- C9: The synthesized native entry point bitcasts the user entry
function, calls the runtime startup routine with its own three
parameters unmodified and in order followed by that bitcast, and
returns the call's result. -/
theorem createMainFunction_forwards_args :
    ∀ (st : CState) (sig : FnSig),
      moduleNamedFunction st "main.main" = some sig →
      ∃ st' : CState,
        createMainFunction st = .ok st' ∧
        st'.blocks st.nextId =
          [(st.nextId + 1, .bitcast (.fnRef "main.main") (.ptr .i8)),
           (st.nextId + 2, .call (.fnRef "runtime.main")
              [.param "main" 0, .param "main" 1, .param "main" 2, .reg (st.nextId + 1)]),
           (st.nextId + 3, .ret (.reg (st.nextId + 2)))] := by
  intro st sig h
  simp only [createMainFunction, h]
  refine ⟨_, rfl, ?_⟩
  simp

/-- C9 witness: a concrete module that does define `main.main`. -/
theorem createMainFunction_forwards_args_witness :
    ∃ st' : CState,
      createMainFunction
        { initState with modFuncs := [("main.main", .goSig "func()")] } = .ok st' ∧
      st'.blocks 1 =
        [(2, .bitcast (.fnRef "main.main") (.ptr .i8)),
         (3, .call (.fnRef "runtime.main")
            [.param "main" 0, .param "main" 1, .param "main" 2, .reg 2]),
         (4, .ret (.reg 3))] :=
  createMainFunction_forwards_args
    { initState with modFuncs := [("main.main", .goSig "func()")] } (.goSig "func()") rfl

/-- C8: Compiling a root unit (`importpath` resolving to "main") whose
module lacks `main.main` returns a descriptive error whose message
contains the entry symbol's name, and no module. -/
theorem compile_missing_main_error :
    ∀ (fe : FrontEnd) (st : CState) (importpath pkgname : String),
      fe.buildContext = .ok () →
      fe.parseResult = .ok pkgname →
      fe.packageErr = none →
      (if importpath = "" || pkgname = "main" then pkgname else importpath) = "main" →
      moduleNamedFunction st "main.main" = none →
      Compile fe st importpath = (none, some ("Could not find " ++ "main.main")) := by
  intro fe st importpath pkgname h1 h2 h3 h4 h5
  have hcm : createMainFunction st = .error "Could not find main.main" := by
    unfold createMainFunction
    rw [h5]
  simp only [Compile, h1, h2, h3]
  rw [h4]
  simp [hcm]

/-- C8 witness: an empty root module. -/
theorem compile_missing_main_error_witness :
    Compile { buildContext := .ok (), parseResult := .ok "main",
              packageErr := none, exportErr := none }
      initState "" = (none, some ("Could not find " ++ "main.main")) :=
  compile_missing_main_error
    { buildContext := .ok (), parseResult := .ok "main",
      packageErr := none, exportErr := none }
    initState "" "main" rfl rfl rfl rfl rfl

/-- C1 (code bug): when parsing succeeds but the created package records
a type-check failure in its error field, `Compile` returns the *stale*
`err` variable — which is nil on this path — instead of `pkginfo.Err`:
the caller gets neither a module nor an error. -/
theorem compile_typecheck_error_swallowed :
    Compile { buildContext := .ok (), parseResult := .ok "p",
              packageErr := some "p.go:3: undeclared name: x", exportErr := none }
      initState "p" = (none, none) := rfl

/-- C2 (code bug): `Dispose` has a value receiver, so the
`Disposed = true` write is lost with the copied receiver; two `Dispose`
calls on the same fresh `Module` dispose the underlying backend module
twice, not at most once. -/
theorem dispose_underlying_disposed_twice :
    disposeTimes { name := "main", disposed := false } 2 = 2 := rfl

/-- C4: For a function whose epilogue is synthesized (has-defer true,
fresh per-function state), an unwind block exists iff the body has a
qualifying direct call, and when it exists its only content is a
catch-all landing pad typed `{i8*, i32}` associated with the
personality-routine declaration — reused by name when already present,
declared niladic-varargs otherwise — carrying a single catch-all
clause, followed by an unconditional branch to the defer block. -/
theorem makeDeferBlock_unwind_iff :
    ∀ (body : StmtList) (st : CState) (f : FState),
      hasDefer body = true →
      f.unwindblock = none →
      ∃ (st' : CState) (f' : FState),
        makeDeferBlock none body st f = .ok (st', f') ∧
        f'.unwindblock.isSome = hasCallExpr body ∧
        ∀ ub, f'.unwindblock = some ub →
          ∃ lpId brId db,
            f'.deferblock = some db ∧
            st'.blocks ub =
              [(lpId, .landingpad (.struct2 (.ptr .i8) .i32) (.fnRef "__gxx_personality_v0") 1
                  [.constNull (.ptr .i8)]),
               (brId, .br db)] ∧
            (match st.modFuncs.lookup "__gxx_personality_v0" with
             | some s => st'.modFuncs.lookup "__gxx_personality_v0" = some s
             | none =>
               st'.modFuncs.lookup "__gxx_personality_v0" = some (.llvmSig .i32 [] true)) := by
  intro body st f _ hf
  have hnf : ∀ stX : CState,
      (namedFunction stX "runtime.rundefers" "func f(uintptr)").2.modFuncs.lookup
        "__gxx_personality_v0" = stX.modFuncs.lookup "__gxx_personality_v0" :=
    fun stX => namedFunction_modFuncs_lookup stX _ _ (by decide)
  cases hcall : hasCallExpr body with
  | false =>
    simp only [makeDeferBlock, makeDeferBlockCore, hcall, hf]
    simp
    refine ⟨_, _, ⟨rfl, rfl⟩, rfl, ?_⟩
    intro ub hub
    simp at hub
  | true =>
    simp only [makeDeferBlock, makeDeferBlockCore, moduleNamedFunction, hcall]
    simp
    have hne1 : st.nextId + 1 + 1 ≠ st.nextId + 1 := by omega
    cases hpers : List.lookup "__gxx_personality_v0" st.modFuncs with
    | some s =>
      simp only [hpers]
      refine ⟨_, _, ⟨rfl, rfl⟩, by simp, ?_⟩
      intro ub hub
      simp at hub
      subst hub
      refine ⟨st.nextId + 1 + 1 + 1, st.nextId + 1 + 1 + 1 + 1, st.nextId + 1, rfl, ?_, ?_⟩
      · simp [hne1, addClauseInstr]
      · simp [hnf, hpers]
    | none =>
      simp only [hpers]
      refine ⟨_, _, ⟨rfl, rfl⟩, by simp, ?_⟩
      intro ub hub
      simp at hub
      subst hub
      refine ⟨st.nextId + 1 + 1 + 1, st.nextId + 1 + 1 + 1 + 1, st.nextId + 1, rfl, ?_, ?_⟩
      · simp [hne1, addClauseInstr]
      · simp [hnf]
        rw [lookup_append_none hpers]
        rfl

/-- C4 witness: a body with one defer statement and one direct call, in
a fresh session. -/
theorem makeDeferBlock_unwind_iff_witness :
    ∃ (st' : CState) (f' : FState),
      makeDeferBlock none deferAndCallBody initState freshF = .ok (st', f') ∧
      f'.unwindblock.isSome = hasCallExpr deferAndCallBody ∧
      ∀ ub, f'.unwindblock = some ub →
        ∃ lpId brId db,
          f'.deferblock = some db ∧
          st'.blocks ub =
            [(lpId, .landingpad (.struct2 (.ptr .i8) .i32) (.fnRef "__gxx_personality_v0") 1
                [.constNull (.ptr .i8)]),
             (brId, .br db)] ∧
          (match initState.modFuncs.lookup "__gxx_personality_v0" with
           | some s => st'.modFuncs.lookup "__gxx_personality_v0" = some s
           | none =>
             st'.modFuncs.lookup "__gxx_personality_v0" = some (.llvmSig .i32 [] true)) :=
  makeDeferBlock_unwind_iff deferAndCallBody initState freshF (by decide) rfl

/-- C5: The defer block's generated instruction sequence is exactly a
load of the defer anchor, a call of the run-deferred-calls runtime
routine with the loaded value, and the function's real return — void
with no result slots, the single slot's value with one, an aggregate of
all slot values with more. -/
theorem makeDeferBlock_defer_block_content :
    ∀ (body : StmtList) (st : CState) (f : FState),
      hasDefer body = true →
      f.unwindblock = none →
      ∃ (st' : CState) (f' : FState) (db anchorId loadId callId retId : Nat),
        makeDeferBlock none body st f = .ok (st', f') ∧
        f'.deferptr = some (.reg anchorId) ∧
        f'.deferblock = some db ∧
        st'.blocks db =
          [(loadId, .load (.reg anchorId)),
           (callId, .call (.fnRef "runtime.rundefers") [.reg loadId])] ++
          (match f.results with
           | [] => [(retId, Instr.retVoid)]
           | [r] => [(retId, Instr.ret (.objVal r))]
           | rs => [(retId, Instr.aggRet (rs.map Val.objVal))]) := by
  intro body st f _ hf
  cases hcall : hasCallExpr body with
  | false =>
    simp only [makeDeferBlock, makeDeferBlockCore, hcall, hf]
    simp
    rcases hres : f.results with _ | ⟨r, _ | ⟨r2, rs⟩⟩
    all_goals
      refine ⟨_, _, ⟨rfl, rfl⟩, st.nextId + 1, st.nextId, rfl, rfl, st.nextId + 1 + 1,
        st.nextId + 1 + 1 + 1, st.nextId + 1 + 1 + 1 + 1, ?_⟩
    all_goals simp
  | true =>
    simp only [makeDeferBlock, makeDeferBlockCore, moduleNamedFunction, hcall]
    simp
    have hne1 : st.nextId + 1 ≠ st.nextId + 1 + 1 := by omega
    cases hpers : List.lookup "__gxx_personality_v0" st.modFuncs with
    | some s =>
      simp only [hpers]
      rcases hres : f.results with _ | ⟨r, _ | ⟨r2, rs⟩⟩
      all_goals
        refine ⟨_, _, ⟨rfl, rfl⟩, st.nextId + 1, st.nextId, rfl, rfl,
          st.nextId + 1 + 1 + 1 + 1 + 1, st.nextId + 1 + 1 + 1 + 1 + 1 + 1,
          st.nextId + 1 + 1 + 1 + 1 + 1 + 1 + 1, ?_⟩
      all_goals simp [hne1]
    | none =>
      simp only [hpers]
      rcases hres : f.results with _ | ⟨r, _ | ⟨r2, rs⟩⟩
      all_goals
        refine ⟨_, _, ⟨rfl, rfl⟩, st.nextId + 1, st.nextId, rfl, rfl,
          st.nextId + 1 + 1 + 1 + 1 + 1, st.nextId + 1 + 1 + 1 + 1 + 1 + 1,
          st.nextId + 1 + 1 + 1 + 1 + 1 + 1 + 1, ?_⟩
      all_goals simp [hne1]

/-- C5 witness: a body with a single defer statement and no other call,
in a fresh session, for a function with one declared result slot. -/
theorem makeDeferBlock_defer_block_content_witness :
    ∃ (st' : CState) (f' : FState) (db anchorId loadId callId retId : Nat),
      makeDeferBlock none deferOnlyBody initState oneResultF = .ok (st', f') ∧
      f'.deferptr = some (.reg anchorId) ∧
      f'.deferblock = some db ∧
      st'.blocks db =
        [(loadId, .load (.reg anchorId)),
         (callId, .call (.fnRef "runtime.rundefers") [.reg loadId])] ++
        (match oneResultF.results with
         | [] => [(retId, Instr.retVoid)]
         | [r] => [(retId, Instr.ret (.objVal r))]
         | rs => [(retId, Instr.aggRet (rs.map Val.objVal))]) :=
  makeDeferBlock_defer_block_content deferOnlyBody initState oneResultF (by decide) rfl

/-- C3 counterexample: for the body `defer f(g())`, the call `g()` sits
in the argument list of the deferred-call statement — by the claim it
still counts as a direct call, but the code's traversal skips the whole
defer statement and returns false. -/
theorem hasCallExpr_spec_mismatch :
    hasCallExpr deferArgCallBody = false ∧ specHasDirectCall deferArgCallBody = true := by
  decide

/-- C3 amended: `hasCallExpr` is true iff the body contains at least one
call expression lying outside every deferred-call statement, every
concurrent-spawn statement (callee and argument list included, since
the traversal skips those statements whole), and every nested function
literal. -/
theorem hasCallExpr_iff_direct_call_present :
    ∀ body : StmtList, hasCallExpr body = true ↔ 0 < directCalls body :=
  fun body => hasCallSL_iff_directCalls body

/-- No switch case of `parseArch` starts with "armv". -/
theorem archTable_no_armv : ∀ p ∈ archTable, goHasPrefixStr "armv" p.1 = false := by decide

/-- C7: `parseArch` follows the alias table (including the listed
examples), sends every string beginning with "armv" to "arm" by prefix
match, sends every unrecognized string to the "unknown" sentinel, and
the architecture field extracted from "x86_64-unknown-linux-gnu"
resolves to "x86-64". -/
theorem parseArch_alias_table :
    (∀ p ∈ archTable, parseArch p.1 = p.2) ∧
    parseArch "i686" = "x86" ∧
    parseArch "amd64" = "x86-64" ∧
    parseArch "x86_64" = "x86-64" ∧
    parseArch "mipsel" = "mipsel" ∧
    parseArch "mipsallegrexel" = "mipsel" ∧
    (∀ s : String, goHasPrefixStr "armv" s = true → parseArch s = "arm") ∧
    (∀ s : String, archTable.lookup s = none → goHasPrefixStr "armv" s = false →
      goHasPrefixStr "thumbv" s = false → parseArch s = "unknown") ∧
    newCompilerArch "x86_64-unknown-linux-gnu" = some "x86_64" := by
  refine ⟨by decide, rfl, rfl, rfl, rfl, rfl, ?_, ?_, by decide⟩
  · intro s h
    have hlook : archTable.lookup s = none := by
      cases hl : archTable.lookup s with
      | none => rfl
      | some v =>
        obtain ⟨p, hp, he⟩ := lookup_some_key hl
        rw [he] at h
        rw [archTable_no_armv p hp] at h
        exact absurd h (by simp)
    simp [parseArch, hlook, h]
  · intro s h1 h2 h3
    simp [parseArch, h1, h2, h3]

/-- C7 witness: one table entry, one "armv"-prefixed name, one
unrecognized name. -/
theorem parseArch_alias_table_witness :
    parseArch "i386" = "x86" ∧ parseArch "armv7a" = "arm" ∧ parseArch "mips99" = "unknown" :=
  ⟨parseArch_alias_table.1 ("i386", "x86") (by decide),
   parseArch_alias_table.2.2.2.2.2.2.1 "armv7a" (by decide),
   parseArch_alias_table.2.2.2.2.2.2.2.1 "mips99" (by decide) (by decide) (by decide)⟩

/-- `strings.IndexRune` yields -1 exactly when the rune is absent. -/
theorem indexRune_not_mem {c : Char} : ∀ cs : List Char, c ∉ cs → indexRune cs c = -1 := by
  intro cs
  induction cs with
  | nil => intro; rfl
  | cons a as ih =>
    intro h
    have ha : ¬(a = c) := by
      rintro rfl
      exact h (List.mem_cons_self _ _)
    have has : c ∉ as := fun hm => h (List.mem_cons_of_mem _ hm)
    simp [indexRune, ha, ih has]

/-- When the rune occurs, `strings.IndexRune` yields a position inside
the string. -/
theorem indexRune_mem {c : Char} : ∀ cs : List Char, c ∈ cs →
    0 ≤ indexRune cs c ∧ indexRune cs c < (cs.length : Int) := by
  intro cs
  induction cs with
  | nil => intro h; simp at h
  | cons a as ih =>
    intro h
    by_cases ha : a = c
    · simp [indexRune, ha]
    · obtain ⟨h0, hlt⟩ := ih (List.mem_of_ne_of_mem (fun h' => ha h'.symm) h)
      have hnn : ¬ indexRune as c < 0 := by omega
      simp [indexRune, ha, hnn]
      all_goals omega

/-- C10: `NewCompiler`'s architecture-field extraction
`triple[:strings.IndexRune(triple, '-')]` terminates abnormally (Go
slice panic on the -1 bound) for every post-rewrite triple without a
'-', and is well-defined for every triple containing one. -/
theorem newCompiler_requires_dash :
    ∀ t : String,
      ('-' ∉ t.data → newCompilerArch t = none) ∧
      ('-' ∈ t.data → ∃ a, newCompilerArch t = some a) := by
  intro t
  constructor
  · intro h
    unfold newCompilerArch goSlicePrefixTo
    rw [indexRune_not_mem t.data h]
    simp
  · intro h
    obtain ⟨h0, hlt⟩ := indexRune_mem t.data h
    unfold newCompilerArch goSlicePrefixTo
    rw [if_pos ⟨h0, le_of_lt hlt⟩]
    exact ⟨_, rfl⟩

/-- C10 witness: a dash-free triple and a well-formed one. -/
theorem newCompiler_requires_dash_witness :
    newCompilerArch "foo" = none ∧
    ∃ a, newCompilerArch "x86_64-unknown-linux-gnu" = some a :=
  ⟨(newCompiler_requires_dash "foo").1 (by decide),
   (newCompiler_requires_dash "x86_64-unknown-linux-gnu").2 (by decide)⟩

end Llgo
